import Mathlib

/-!
Verification of the rusty_dns core against its design document.

The definitions below are a shallow embedding of the Rust sources:
`src/structs/buffer.rs` (wire buffer), `src/structs/header.rs` (DNS header),
`src/structs/questions_and_records.rs` (questions and records),
`src/structs/packet.rs` (packet accessors), `src/structs/db_queries.rs`
(cache rows) and `src/workers/helpers.rs` (resolver loop and the two
response composers).  Machine integers are modelled as `Nat` with explicit
truncation (`% 256`) at the byte store, strings as Lean `String` over ASCII
data (the data model fixes domain names to lowercased ASCII), fallible Rust
functions (`CResult`) as `Option`, and the SQLite cache as a list of rows.
-/

namespace RustyDns

/-- Embedding of `BytePacketBuffer` (buffer.rs): a fixed 512-byte datagram
buffer plus a cursor.  The byte array is modelled as a total function
`Nat → Nat`; every access the Rust code performs is guarded by the same
`512` bounds checks as the source, so only indices below 512 are ever
relevant. -/
structure BytePacketBuffer where
  buf : Nat → Nat
  pos : Nat

/-- `BytePacketBuffer::new` — zero-filled buffer, cursor at 0. -/
def BytePacketBuffer.new : BytePacketBuffer :=
  { buf := fun _ => 0, pos := 0 }

/-- `BytePacketBuffer::get` — read the byte at `pos` without advancing;
`Err("End of buffer")` when `pos >= 512`. -/
def BytePacketBuffer.get (b : BytePacketBuffer) (pos : Nat) : Option Nat :=
  if 512 ≤ pos then none else some (b.buf pos)

/-- `BytePacketBuffer::read_u8` — read one byte, advance the cursor;
fails when `self.pos >= 512`. -/
def BytePacketBuffer.read_u8 (b : BytePacketBuffer) : Option (Nat × BytePacketBuffer) :=
  if 512 ≤ b.pos then none
  else some (b.buf b.pos, { b with pos := b.pos + 1 })

/-- `BytePacketBuffer::read_u16` — two `read_u8` composed big-endian:
`(hi << 8) | lo`. -/
def BytePacketBuffer.read_u16 (b : BytePacketBuffer) : Option (Nat × BytePacketBuffer) :=
  match b.read_u8 with
  | none => none
  | some (hi, b) =>
    match b.read_u8 with
    | none => none
    | some (lo, b) => some ((hi <<< 8) ||| lo, b)

/-- `BytePacketBuffer::read_u32` — four `read_u8` composed big-endian. -/
def BytePacketBuffer.read_u32 (b : BytePacketBuffer) : Option (Nat × BytePacketBuffer) :=
  match b.read_u8 with
  | none => none
  | some (a, b) =>
    match b.read_u8 with
    | none => none
    | some (a2, b) =>
      match b.read_u8 with
      | none => none
      | some (a3, b) =>
        match b.read_u8 with
        | none => none
        | some (a4, b) => some ((a <<< 24) ||| (a2 <<< 16) ||| (a3 <<< 8) ||| a4, b)

/-- `BytePacketBuffer::seek` — set the cursor; the source performs no bound
check and always returns `Ok(())`. -/
def BytePacketBuffer.seek (b : BytePacketBuffer) (pos : Nat) : Option BytePacketBuffer :=
  some { b with pos := pos }

/-- `BytePacketBuffer::step` — advance the cursor by `steps`; the source
performs no bound check and always returns `Ok(())`. -/
def BytePacketBuffer.step (b : BytePacketBuffer) (steps : Nat) : Option BytePacketBuffer :=
  some { b with pos := b.pos + steps }

/-- `BytePacketBuffer::get_range` — borrow `buf[start..start+len]` without
moving the cursor; `Err("End of buffer")` when `start + len >= 512`
(note: `>=`, exactly as the source writes it). -/
def BytePacketBuffer.get_range (b : BytePacketBuffer) (start len : Nat) : Option (List Nat) :=
  if 512 ≤ start + len then none
  else some ((List.range len).map (fun i => b.buf (start + i)))

/-- `BytePacketBuffer::write_u8` — store one byte at the cursor and advance;
fails when `self.pos >= 512`.  The stored value is truncated to a byte
(`val : u8` in the source; callers cast wider values down). -/
def BytePacketBuffer.write_u8 (b : BytePacketBuffer) (val : Nat) : Option BytePacketBuffer :=
  if 512 ≤ b.pos then none
  else some { b with buf := Function.update b.buf b.pos (val % 256), pos := b.pos + 1 }

/-- `BytePacketBuffer::write_u16` — big-endian: `(val >> 8) as u8` then
`(val & 0xFF) as u8` (the `as u8` casts are absorbed by `write_u8`). -/
def BytePacketBuffer.write_u16 (b : BytePacketBuffer) (val : Nat) : Option BytePacketBuffer :=
  match b.write_u8 (val >>> 8) with
  | none => none
  | some b => b.write_u8 (val &&& 0xFF)

/-- `BytePacketBuffer::write_u32` — big-endian via two `write_u16`. -/
def BytePacketBuffer.write_u32 (b : BytePacketBuffer) (val : Nat) : Option BytePacketBuffer :=
  match b.write_u16 (val >>> 16) with
  | none => none
  | some b => b.write_u16 (val &&& 0xFFFF)

/-- `BytePacketBuffer::set_u8` — in-place write at `pos` without moving the
cursor; fails when `pos >= 512`. -/
def BytePacketBuffer.set_u8 (b : BytePacketBuffer) (pos val : Nat) : Option BytePacketBuffer :=
  if 512 ≤ pos then none
  else some { b with buf := Function.update b.buf pos (val % 256) }

/-- `BytePacketBuffer::set_u16` — two `set_u8` at `pos` and `pos + 1`. -/
def BytePacketBuffer.set_u16 (b : BytePacketBuffer) (pos val : Nat) : Option BytePacketBuffer :=
  match b.set_u8 pos (val >>> 8) with
  | none => none
  | some b => b.set_u8 (pos + 1) (val &&& 0xFF)

/-- ASCII lowercasing of one byte, the effect of Rust
`String::to_lowercase` on the ASCII data the resolver handles. -/
def ascii_lower (n : Nat) : Nat :=
  if 65 ≤ n ∧ n ≤ 90 then n + 32 else n

/-- The label bytes extracted by `get_range`, decoded and lowercased
(`String::from_utf8_lossy(..).to_lowercase()` restricted to ASCII data). -/
def bytes_to_lower_string (bytes : List Nat) : String :=
  String.mk (bytes.map (fun n => Char.ofNat (ascii_lower n)))

/-- Result of `read_qname`: the source loop either errors, or finishes with
the accumulated output string and the final buffer.  `fuelOut` marks fuel
exhaustion of the model runner and corresponds to no source behaviour; the
termination theorem shows a fixed fuel is never exhausted. -/
inductive QnameRes where
  | fuelOut
  | err
  | ok (out : String) (b : BytePacketBuffer)

/-- The body of the `loop` in `BytePacketBuffer::read_qname` (buffer.rs).
Parameters mirror the source locals: `pos` (the local read position),
`jumped`, `jumps_performed`, `delim` and the output accumulator `out`;
`max_jumps` is 5.  One fuel unit is one loop iteration. -/
def read_qname_go (b : BytePacketBuffer) (pos : Nat) (jumped : Bool)
    (jumps_performed : Nat) (delim out : String) : Nat → QnameRes
  | 0 => .fuelOut
  | fuel + 1 =>
    if 5 < jumps_performed then .err
    else
      match b.get pos with
      | none => .err
      | some len =>
        if len &&& 0xC0 = 0xC0 then
          let b' := if jumped then b else { b with pos := pos + 2 }
          match b'.get (pos + 1) with
          | none => .err
          | some b2 =>
            let offset := ((len ^^^ 0xC0) <<< 8) ||| b2
            read_qname_go b' offset true (jumps_performed + 1) delim out fuel
        else
          if len = 0 then
            if jumped then .ok out b else .ok out { b with pos := pos + 1 }
          else
            match b.get_range (pos + 1) len with
            | none => .err
            | some str_buffer =>
              read_qname_go b (pos + 1 + len) jumped jumps_performed "."
                (out ++ delim ++ bytes_to_lower_string str_buffer) fuel

/-- `BytePacketBuffer::read_qname` — start the loop at the buffer cursor
with no jumps performed and an empty delimiter.  Fuel 4000 exceeds the
bound proved in `read_qname_go_no_fuelOut`. -/
def read_qname (b : BytePacketBuffer) (out : String) : QnameRes :=
  read_qname_go b b.pos false 0 "" out 4000

/-- `str::split('.')` on a character list: "" gives [""], separators at
either end give empty labels, exactly as in Rust.  (Structural recursion
stands in for `String.splitOn`, which matches it on ASCII data.) -/
def split_on_dot : List Char → List (List Char)
  | [] => [[]]
  | c :: rest =>
    match split_on_dot rest with
    | [] => [[c]]
    | l :: ls => if c = '.' then [] :: l :: ls else (c :: l) :: ls

/-- The per-label body of `BytePacketBuffer::write_qname`: length prefix
(rejected when `len > 0x34`) followed by the label bytes
(`label.as_bytes()`, modelled as the ASCII codes of the characters). -/
def write_qname_labels (b : BytePacketBuffer) : List (List Char) → Option BytePacketBuffer
  | [] => some b
  | label :: rest =>
    if 0x34 < label.length then none
    else
      match b.write_u8 label.length with
      | none => none
      | some b =>
        match List.foldlM BytePacketBuffer.write_u8 b (label.map Char.toNat) with
        | none => none
        | some b => write_qname_labels b rest

/-- `BytePacketBuffer::write_qname` — `for label in qname.split('.')` write
each label, then the terminating zero byte. -/
def write_qname (b : BytePacketBuffer) (qname : String) : Option BytePacketBuffer :=
  match write_qname_labels b (split_on_dot qname.data) with
  | none => none
  | some b => b.write_u8 0

/-- `ResultCode` (header.rs): the closed response-code enumeration. -/
inductive ResultCode where
  | NOERROR
  | FORMERR
  | SERVFAIL
  | NXDOMAIN
  | NOTIMP
  | REFUSED
deriving DecidableEq

/-- `ResultCode::from_num` — unknown values decode to `NOERROR`. -/
def ResultCode.from_num (num : Nat) : ResultCode :=
  match num with
  | 1 => .FORMERR
  | 2 => .SERVFAIL
  | 3 => .NXDOMAIN
  | 4 => .NOTIMP
  | 5 => .REFUSED
  | _ => .NOERROR

/-- The discriminant of `ResultCode` (the `rescode as u8` cast). -/
def ResultCode.to_num : ResultCode → Nat
  | .NOERROR => 0
  | .FORMERR => 1
  | .SERVFAIL => 2
  | .NXDOMAIN => 3
  | .NOTIMP => 4
  | .REFUSED => 5

/-- `Header` (header.rs): the 12-byte DNS header. -/
structure Header where
  id : Nat
  recursion_desired : Bool
  truncated_message : Bool
  authoritative_answer : Bool
  opcode : Nat
  response : Bool
  rescode : ResultCode
  checking_disabled : Bool
  authed_data : Bool
  z : Bool
  recursion_available : Bool
  questions : Nat
  answers : Nat
  authoritative_entries : Nat
  resource_entries : Nat
deriving DecidableEq

/-- `Header::new` — all-zero header. -/
def Header.new : Header :=
  { id := 0, recursion_desired := false, truncated_message := false,
    authoritative_answer := false, opcode := 0, response := false,
    rescode := .NOERROR, checking_disabled := false, authed_data := false,
    z := false, recursion_available := false, questions := 0, answers := 0,
    authoritative_entries := 0, resource_entries := 0 }

/-- `Header::read` — parse the header from the buffer (flag-bit layout as
in the source: byte 0 is RD, TC, AA, opcode, QR; byte 1 is RCODE, CD, AD,
Z, RA). -/
def Header.read (b : BytePacketBuffer) : Option (Header × BytePacketBuffer) :=
  match b.read_u16 with
  | none => none
  | some (id, b) =>
    match b.read_u16 with
    | none => none
    | some (flags, b) =>
      let flags_a := flags >>> 8
      let flags_b := flags &&& 0xFF
      match b.read_u16 with
      | none => none
      | some (questions, b) =>
        match b.read_u16 with
        | none => none
        | some (answers, b) =>
          match b.read_u16 with
          | none => none
          | some (authoritative_entries, b) =>
            match b.read_u16 with
            | none => none
            | some (resource_entries, b) =>
              some ({ id := id,
                      recursion_desired := decide (0 < flags_a &&& 1),
                      truncated_message := decide (0 < flags_a &&& (1 <<< 1)),
                      authoritative_answer := decide (0 < flags_a &&& (1 <<< 2)),
                      opcode := (flags_a >>> 3) &&& 0x0F,
                      response := decide (0 < flags_a &&& (1 <<< 7)),
                      rescode := ResultCode.from_num (flags_b &&& 0x0F),
                      checking_disabled := decide (0 < flags_b &&& (1 <<< 4)),
                      authed_data := decide (0 < flags_b &&& (1 <<< 5)),
                      z := decide (0 < flags_b &&& (1 <<< 6)),
                      recursion_available := decide (0 < flags_b &&& (1 <<< 7)),
                      questions := questions,
                      answers := answers,
                      authoritative_entries := authoritative_entries,
                      resource_entries := resource_entries }, b)

/-- `Header::write` — serialize the header (same flag-bit layout). -/
def Header.write (h : Header) (b : BytePacketBuffer) : Option BytePacketBuffer :=
  match b.write_u16 h.id with
  | none => none
  | some b =>
    match b.write_u8 (h.recursion_desired.toNat
        ||| (h.truncated_message.toNat <<< 1)
        ||| (h.authoritative_answer.toNat <<< 2)
        ||| (h.opcode <<< 3)
        ||| (h.response.toNat <<< 7)) with
    | none => none
    | some b =>
      match b.write_u8 (h.rescode.to_num
          ||| (h.checking_disabled.toNat <<< 4)
          ||| (h.authed_data.toNat <<< 5)
          ||| (h.z.toNat <<< 6)
          ||| (h.recursion_available.toNat <<< 7)) with
      | none => none
      | some b =>
        match b.write_u16 h.questions with
        | none => none
        | some b =>
          match b.write_u16 h.answers with
          | none => none
          | some b =>
            match b.write_u16 h.authoritative_entries with
            | none => none
            | some b => b.write_u16 h.resource_entries

/-- `QueryType` (questions_and_records.rs). -/
inductive QueryType where
  | UNKNOWN (num : Nat)
  | A
  | NS
  | CNAME
  | MX
  | AAAA
deriving DecidableEq

/-- `QueryType::from_num`. -/
def QueryType.from_num (num : Nat) : QueryType :=
  match num with
  | 1 => .A
  | 2 => .NS
  | 5 => .CNAME
  | 15 => .MX
  | 28 => .AAAA
  | _ => .UNKNOWN num

/-- `QueryType::to_num`. -/
def QueryType.to_num : QueryType → Nat
  | .UNKNOWN x => x
  | .A => 1
  | .NS => 2
  | .CNAME => 5
  | .MX => 15
  | .AAAA => 28

/-- `std::net::Ipv4Addr`: four octets. -/
structure Ipv4 where
  o1 : Nat
  o2 : Nat
  o3 : Nat
  o4 : Nat
deriving DecidableEq

/-- `Ipv4Addr::to_string` — dotted decimal. -/
def Ipv4.to_string (a : Ipv4) : String :=
  Nat.repr a.o1 ++ "." ++ Nat.repr a.o2 ++ "." ++ Nat.repr a.o3 ++ "." ++ Nat.repr a.o4

/-- Modelled from std: one octet of `Ipv4Addr::from_str` — decimal digits
only, value at most 255, no leading zero. -/
def parse_octet (chars : List Char) : Option Nat :=
  if chars = [] then none
  else if chars.all Char.isDigit then
    if 255 < chars.foldl (fun acc c => acc * 10 + (c.toNat - 48)) 0 then none
    else if 1 < chars.length ∧ chars.headD 'x' = '0' then none
    else some (chars.foldl (fun acc c => acc * 10 + (c.toNat - 48)) 0)
  else none

/-- Modelled from std: `Ipv4Addr::from_str` — exactly four dot-separated
decimal octets. -/
def ipv4_from_str (s : String) : Option Ipv4 :=
  match (split_on_dot s.data).mapM parse_octet with
  | some [a, b, c, d] => some ⟨a, b, c, d⟩
  | _ => none

/-- `std::net::Ipv6Addr`: eight 16-bit groups. -/
structure Ipv6 where
  groups : List Nat
deriving DecidableEq

/-- One hexadecimal digit. -/
def hex_digit (c : Char) : Option Nat :=
  if '0' ≤ c ∧ c ≤ '9' then some (c.toNat - 48)
  else if 'a' ≤ c ∧ c ≤ 'f' then some (c.toNat - 87)
  else if 'A' ≤ c ∧ c ≤ 'F' then some (c.toNat - 55)
  else none

/-- `str::split(':')` on a character list, as `split_on_dot`. -/
def split_on_colon : List Char → List (List Char)
  | [] => [[]]
  | c :: rest =>
    match split_on_colon rest with
    | [] => [[c]]
    | l :: ls => if c = ':' then [] :: l :: ls else (c :: l) :: ls

/-- One colon-separated group of up to four hex digits. -/
def parse_hex_group (chars : List Char) : Option Nat :=
  if chars.length = 0 ∨ 4 < chars.length then none
  else (chars.mapM hex_digit).map (fun ds => ds.foldl (fun acc d => acc * 16 + d) 0)

/-- Modelled from std, simplified: `Ipv6Addr::from_str` restricted to the
full uncompressed eight-group form (no claim exercises the abbreviated
forms). -/
def ipv6_from_str (s : String) : Option Ipv6 :=
  match (split_on_colon s.data).mapM parse_hex_group with
  | some gs => if gs.length = 8 then some ⟨gs⟩ else none
  | none => none

/-- `Question` (questions_and_records.rs). -/
structure Question where
  qname : String
  qtype : QueryType
deriving DecidableEq

/-- `Record` (questions_and_records.rs): the tagged record variant. -/
inductive Record where
  | UNKNOWN (domain : String) (qtype : Nat) (data_len : Nat) (ttl : Nat)
  | A (domain : String) (addr : Ipv4) (ttl : Nat)
  | NS (domain : String) (host : String) (ttl : Nat)
  | CNAME (domain : String) (host : String) (ttl : Nat)
  | MX (domain : String) (priority : Nat) (host : String) (ttl : Nat)
  | AAAA (domain : String) (addr : Ipv6) (ttl : Nat)
deriving DecidableEq

/-- Discriminator used to state "first A-record in wire order". -/
def Record.is_a : Record → Bool
  | .A _ _ _ => true
  | _ => false

/-- `CachedRecord` (db_queries.rs): one row of the `entries` table.
`expiration_date` is an absolute timestamp (`DateTime<Local>` modelled as
seconds). -/
structure CachedRecord where
  id : Nat
  address : Option String
  host : Option String
  priority : Option Nat
  domain : String
  expiration_date : Nat
  ttl : Nat
  record_type : Nat
deriving DecidableEq

/-- `CachedRecord::is_valid` — `expiration_date >= now`. -/
def CachedRecord.is_valid (cr : CachedRecord) (now : Nat) : Bool :=
  decide (now ≤ cr.expiration_date)

/-- `CachedRecord::record_from_cache` — rebuild a typed `Record` from the
stored columns; errors (modelled `none`) on a missing column, unparseable
text, or an unsupported `record_type`. -/
def CachedRecord.record_from_cache (cr : CachedRecord) : Option Record :=
  match QueryType.from_num cr.record_type with
  | .A =>
    match cr.address with
    | none => none
    | some raw_addr =>
      match ipv4_from_str raw_addr with
      | none => none
      | some addr => some (.A cr.domain addr cr.ttl)
  | .CNAME =>
    match cr.host with
    | none => none
    | some host => some (.CNAME cr.domain host cr.ttl)
  | .MX =>
    match cr.host with
    | none => none
    | some host =>
      match cr.priority with
      | none => none
      | some priority => some (.MX cr.domain priority host cr.ttl)
  | .AAAA =>
    match cr.address with
    | none => none
    | some raw_addr =>
      match ipv6_from_str raw_addr with
      | none => none
      | some addr => some (.AAAA cr.domain addr cr.ttl)
  | _ => none

/-- `CachedRecord::delete_from_db` — `DELETE FROM entries WHERE id = $1`,
modelled on the row list. -/
def delete_from_db (db : List CachedRecord) (cr : CachedRecord) : List CachedRecord :=
  db.filter (fun row => row.id != cr.id)

/-- The row inserted by `Record::register_record`: `address` as dotted
text, `expiration_date = now + ttl`, `record_type` 1, host and priority
NULL.  The auto-assigned primary key is modelled as the table length. -/
def a_row (domain : String) (addr : Ipv4) (ttl now id : Nat) : CachedRecord :=
  { id := id, address := some addr.to_string, host := none, priority := none,
    domain := domain, expiration_date := now + ttl, ttl := ttl, record_type := 1 }

/-- `Record::register_record` — INSERT of an A-row returning the address;
`Err` (modelled `none`) for every other variant. -/
def Record.register_record (r : Record) (db : List CachedRecord) (now : Nat) :
    Option (Ipv4 × List CachedRecord) :=
  match r with
  | .A domain addr ttl => some (addr, db ++ [a_row domain addr ttl now db.length])
  | _ => none

/-- `Packet` (packet.rs). -/
structure Packet where
  header : Header
  questions : List Question
  answers : List Record
  authorities : List Record
  resources : List Record
deriving DecidableEq

/-- `Packet::new`. -/
def Packet.new : Packet :=
  { header := Header.new, questions := [], answers := [], authorities := [], resources := [] }

/-- `Packet::add_info` — overwrite id, RD, RA, QR and rescode. -/
def Packet.add_info (p : Packet) (id : Nat) (recursion_desired recursion_available response : Bool)
    (rescode : ResultCode) : Packet :=
  { p with header := { p.header with
      id := id
      recursion_desired := recursion_desired
      recursion_available := recursion_available
      response := response
      rescode := rescode } }

/-- `Packet::add_cr_to_answers` — convert a cached row and push it onto the
answer section, bumping the header answer count. -/
def Packet.add_cr_to_answers (p : Packet) (cr : CachedRecord) : Option Packet :=
  match cr.record_from_cache with
  | none => none
  | some record =>
    some { p with
      header := { p.header with answers := p.header.answers + 1 }
      answers := p.answers ++ [record] }

/-- `Packet::get_random_a_rec` — first A-record of the answer section in
wire order. -/
def Packet.get_random_a_rec (p : Packet) : Option Record :=
  (p.answers.filterMap (fun record =>
    match record with
    | .A _ _ _ => some record
    | _ => none)).head?

/-- `Packet::get_ns` — (owner, target-host) pairs of the NS records in the
authority section whose owner is a suffix of `qname`. -/
def Packet.get_ns (p : Packet) (qname : String) : List (String × String) :=
  (p.authorities.filterMap (fun record =>
    match record with
    | .NS domain host _ => some (domain, host)
    | _ => none)).filter (fun dh => qname.endsWith dh.1)

/-- `Packet::get_resolved_ns` — first A-record of the additional section
whose owner equals some NS target-host from `get_ns`. -/
def Packet.get_resolved_ns (p : Packet) (qname : String) : Option Record :=
  ((p.get_ns qname).flatMap (fun dh =>
    p.resources.filterMap (fun record =>
      match record with
      | .A domain addr ttl => if domain == dh.2 then some (Record.A domain addr ttl) else none
      | _ => none))).head?

/-- `Packet::get_unresolved_ns` — first NS target-host from `get_ns`. -/
def Packet.get_unresolved_ns (p : Packet) (qname : String) : Option String :=
  ((p.get_ns qname).map (fun dh => dh.2)).head?

/-- The resolver-loop locals of `inquiring` (helpers.rs):
`search_for_qname = false` is the SEARCHING_NS phase. -/
structure RState where
  current_ns : Ipv4
  currently_quering : String
  current_type : QueryType
  search_for_qname : Bool
deriving DecidableEq

/-- `handling_record` (helpers.rs): examine a cached row found for
`currently_quering`.  Returns the packet to answer with (if any), the
updated resolver state and the updated cache.  The source mutates its
`&mut` arguments; the model returns them. -/
def handling_record (record : CachedRecord) (now : Nat) (st : RState)
    (qname : String) (qtype : QueryType) (db : List CachedRecord) :
    Option Packet × RState × List CachedRecord :=
  if record.is_valid now then
    if st.search_for_qname = false then
      match ipv4_from_str record.domain with
      | some ip =>
        (none, { current_ns := ip, currently_quering := qname, current_type := qtype,
                 search_for_qname := true }, db)
      | none => (none, st, db)
    else
      match Packet.add_cr_to_answers Packet.new record with
      | some response => (some response, st, db)
      | none => (none, st, db)
  else
    (none, st, delete_from_db db record)

/-- Outcome of one iteration of the `inquiring` loop: upstream-lookup or
cache-write failure propagated with `?` (`err`), the `.unwrap()` panic
(`panic`), a returned packet (`ret`), or another trip around the loop
(`next`). -/
inductive IterOutcome where
  | err
  | panic
  | ret (response : Packet) (db : List CachedRecord)
  | next (st : RState) (db : List CachedRecord)
deriving DecidableEq

/-- The part of one `inquiring` iteration after the upstream lookup
returned `response`: NS-phase completion, answer arrival (with the
`.unwrap()` on `get_random_a_rec`), NXDOMAIN, glue following, and the
unresolved-NS switch. -/
def inquiring_after_lookup (qname : String) (qtype : QueryType) (root_addr : Ipv4)
    (now : Nat) (st : RState) (db : List CachedRecord) (response : Packet) : IterOutcome :=
  let ns_step : Option IterOutcome :=
    if st.search_for_qname = false then
      match response.get_random_a_rec with
      | some record =>
        match record.register_record db now with
        | none => some .err
        | some (addr, db') =>
          some (.next { current_ns := addr, currently_quering := qname,
                        current_type := qtype, search_for_qname := true } db')
      | none => none
    else none
  match ns_step with
  | some outcome => outcome
  | none =>
    if response.answers ≠ [] ∧ response.header.rescode = .NOERROR then
      match response.get_random_a_rec with
      | none => .panic
      | some record =>
        match record.register_record db now with
        | none => .err
        | some (_, db') => .ret response db'
    else if response.header.rescode = .NXDOMAIN then .ret response db
    else
      match response.get_resolved_ns st.currently_quering with
      | some record =>
        match record.register_record db now with
        | none => .err
        | some (addr, db') => .next { st with current_ns := addr } db'
      | none =>
        match response.get_unresolved_ns st.currently_quering with
        | some host =>
          .next { current_ns := root_addr, currently_quering := host,
                  current_type := .A, search_for_qname := false } db
        | none => .ret response db

/-- One full iteration of the `inquiring` loop: the cache consult
(`fetch_one` with `LIMIT 1`, modelled as the first matching row) through
`handling_record`, then the upstream lookup (`lookup_response`, `none`
being a `?`-propagated failure), then `inquiring_after_lookup`. -/
def inquiring_iteration (qname : String) (qtype : QueryType) (root_addr : Ipv4)
    (now : Nat) (st : RState) (db : List CachedRecord)
    (lookup_response : Option Packet) : IterOutcome :=
  let consult :=
    match db.find? (fun cr => cr.domain == st.currently_quering) with
    | some cr => handling_record cr now st qname qtype db
    | none => (none, st, db)
  match consult with
  | (some packet, _, db) => .ret packet db
  | (none, st, db) =>
    match lookup_response with
    | none => .err
    | some response => inquiring_after_lookup qname qtype root_addr now st db response

/-- `compose_response` (helpers.rs): the RD-set path.  `inq` is the
outcome of `inquiring` for a given (qname, qtype), `none` being its error
case.  The source pops the last question of the request. -/
def compose_response (request : Packet) (inq : String → QueryType → Option Packet) : Packet :=
  let response := { Packet.new with
    header := { Header.new with
      id := request.header.id
      recursion_desired := true
      recursion_available := true
      response := true } }
  match request.questions.getLast? with
  | some question =>
    match inq question.qname question.qtype with
    | some result =>
      { response with
        header := { response.header with rescode := result.header.rescode },
        questions := [question],
        answers := result.answers,
        authorities := result.authorities,
        resources := result.resources }
    | none => { response with header := { response.header with rescode := .SERVFAIL } }
  | none => { response with header := { response.header with rescode := .FORMERR } }

/-- `cached_compose_response` (helpers.rs): the RD-clear cache-only path.
The SQL text keeps `LIMIT 1` even though the rows are collected with
`fetch_all`, so at most one row is retrieved; the `while let
Some(cr) = vector.pop()` loop returns on every branch of its body.
Returns the response and the updated cache. -/
def cached_compose_response (request : Packet) (db : List CachedRecord) (now : Nat) :
    Packet × List CachedRecord :=
  match request.questions.getLast? with
  | none => (Packet.add_info Packet.new request.header.id false true true .FORMERR, db)
  | some question =>
    let vector := (db.filter (fun cr => cr.domain == question.qname)).take 1
    match vector.getLast? with
    | none => (Packet.add_info Packet.new request.header.id false true true .SERVFAIL, db)
    | some cr =>
      if cr.is_valid now then
        match Packet.add_cr_to_answers Packet.new cr with
        | some response =>
          (response.add_info request.header.id false true true response.header.rescode, db)
        | none => (Packet.add_info Packet.new request.header.id false true true .SERVFAIL, db)
      else
        (Packet.add_info Packet.new request.header.id false true true .SERVFAIL,
         delete_from_db db cr)

/-- A buffer whose first two bytes `C0 00` form a compression pointer back
to offset 0: a pointer cycle. -/
def cycle_buffer : BytePacketBuffer :=
  { buf := fun i => if i = 0 then 0xC0 else 0, pos := 0 }

/-- A single 53-character label (the smallest label the source wrongly
rejects). -/
def label53 : String := String.mk (List.replicate 53 'a')

/-- A single 60-character label (within the 63-octet limit, rejected by
the source's `0x34` check). -/
def label60 : String := String.mk (List.replicate 60 'a')

/-- A cached A-row for the intermediate nameserver name
"ns.example.com", address column "9.9.9.9", expiring at 100. -/
def ns_cached_row : CachedRecord :=
  { id := 0, address := some "9.9.9.9", host := none, priority := none,
    domain := "ns.example.com", expiration_date := 100, ttl := 60, record_type := 1 }

/-- Resolver state in the SEARCHING_NS phase, currently resolving
"ns.example.com". -/
def ns_state : RState :=
  { current_ns := ⟨198, 41, 0, 4⟩, currently_quering := "ns.example.com",
    current_type := .A, search_for_qname := false }

/-- Resolver state in the SEARCHING_QNAME phase for "a.com". -/
def searching_state : RState :=
  { current_ns := ⟨198, 41, 0, 4⟩, currently_quering := "a.com",
    current_type := .A, search_for_qname := true }

/-- An upstream response whose non-empty NOERROR answer section holds one
CNAME record and no A-record. -/
def cname_only_response : Packet :=
  { Packet.new with
    header := { Header.new with rescode := .NOERROR, answers := 1 }
    answers := [.CNAME "a.com" "b.com" 60] }

/-- An upstream response whose answer section holds one A-record. -/
def a_only_response : Packet :=
  { Packet.new with
    header := { Header.new with rescode := .NOERROR, answers := 1 }
    answers := [.A "a.com" ⟨5, 6, 7, 8⟩ 60] }

/-- An expired cached A-row for "x.com" (expired at 10). -/
def expired_row : CachedRecord :=
  { id := 1, address := some "1.2.3.4", host := none, priority := none,
    domain := "x.com", expiration_date := 10, ttl := 60, record_type := 1 }

/-- A valid, well-formed cached A-row for "x.com" (expires at 100). -/
def valid_row : CachedRecord :=
  { id := 2, address := some "1.2.3.4", host := none, priority := none,
    domain := "x.com", expiration_date := 100, ttl := 60, record_type := 1 }

/-- An RD-clear request with id 7 and a single question for "x.com". -/
def rd_clear_request : Packet :=
  { Packet.new with
    header := { Header.new with id := 7, questions := 1 }
    questions := [⟨"x.com", .A⟩] }

/-- A request carrying two questions (only the last is ever looked at). -/
def two_question_request : Packet :=
  { Packet.new with
    header := { Header.new with id := 7, recursion_desired := true, questions := 2 }
    questions := [⟨"ignored.org", .MX⟩, ⟨"x.com", .A⟩] }

/-- The `two_question_request` with the first question removed. -/
def one_question_request : Packet :=
  { Packet.new with
    header := { Header.new with id := 7, recursion_desired := true, questions := 1 }
    questions := [⟨"x.com", .A⟩] }

/-- An `inquiring` oracle that always fails. -/
def const_inq : String → QueryType → Option Packet := fun _ _ => none

/-- A sample header exercising every field for the round-trip witness. -/
def sample_header : Header :=
  { id := 999, recursion_desired := true, truncated_message := false,
    authoritative_answer := true, opcode := 11, response := true,
    rescode := .NXDOMAIN, checking_disabled := true, authed_data := false,
    z := true, recursion_available := false, questions := 1, answers := 2,
    authoritative_entries := 3, resource_entries := 65535 }

/-- The cursor facts of the (amended) buffer invariant for one buffer
state: the guarded reads and writes keep the cursor within 512 and fail
exactly when they would cross that bound, `write_qname` and a successful
`read_qname` keep it within 512, while `seek` and `step` reposition it
with no bound check at all. -/
def cursor_ops_spec (b : BytePacketBuffer) : Prop :=
  (∀ v b', b.read_u8 = some (v, b') → b'.pos ≤ 512) ∧
  (b.read_u8 = none ↔ 512 < b.pos + 1) ∧
  (∀ v b', b.read_u16 = some (v, b') → b'.pos ≤ 512) ∧
  (b.read_u16 = none ↔ 512 < b.pos + 2) ∧
  (∀ v b', b.read_u32 = some (v, b') → b'.pos ≤ 512) ∧
  (b.read_u32 = none ↔ 512 < b.pos + 4) ∧
  (∀ v b', b.write_u8 v = some b' → b'.pos ≤ 512) ∧
  (∀ v, b.write_u8 v = none ↔ 512 < b.pos + 1) ∧
  (∀ v b', b.write_u16 v = some b' → b'.pos ≤ 512) ∧
  (∀ v, b.write_u16 v = none ↔ 512 < b.pos + 2) ∧
  (∀ v b', b.write_u32 v = some b' → b'.pos ≤ 512) ∧
  (∀ v, b.write_u32 v = none ↔ 512 < b.pos + 4) ∧
  (∀ qname b', write_qname b qname = some b' → b'.pos ≤ 512) ∧
  (∀ out acc b', read_qname b acc = .ok out b' → b'.pos ≤ 512) ∧
  (∀ p, b.seek p = some { b with pos := p }) ∧
  (∀ n, b.step n = some { b with pos := b.pos + n })

theorem get_some_lt {b : BytePacketBuffer} {p v : Nat} (h : b.get p = some v) : p < 512 := by
  unfold BytePacketBuffer.get at h
  split at h
  · exact absurd h (by simp)
  · omega

theorem read_u8_some {b b' : BytePacketBuffer} {v : Nat}
    (h : b.read_u8 = some (v, b')) : b.pos < 512 ∧ b'.pos = b.pos + 1 := by
  unfold BytePacketBuffer.read_u8 at h
  split at h
  · exact absurd h (by simp)
  · simp only [Option.some.injEq, Prod.mk.injEq] at h
    refine ⟨by omega, ?_⟩
    rw [← h.2]

theorem read_u8_none {b : BytePacketBuffer} : b.read_u8 = none ↔ 512 ≤ b.pos := by
  unfold BytePacketBuffer.read_u8
  split <;> simp_all

theorem write_u8_some {b b' : BytePacketBuffer} {v : Nat}
    (h : b.write_u8 v = some b') : b.pos < 512 ∧ b'.pos = b.pos + 1 := by
  unfold BytePacketBuffer.write_u8 at h
  split at h
  · exact absurd h (by simp)
  · simp only [Option.some.injEq] at h
    refine ⟨by omega, ?_⟩
    rw [← h]

theorem write_u8_none {b : BytePacketBuffer} {v : Nat} :
    b.write_u8 v = none ↔ 512 ≤ b.pos := by
  unfold BytePacketBuffer.write_u8
  split <;> simp_all

theorem read_u16_some {b b' : BytePacketBuffer} {v : Nat}
    (h : b.read_u16 = some (v, b')) : b.pos + 2 ≤ 512 ∧ b'.pos = b.pos + 2 := by
  unfold BytePacketBuffer.read_u16 at h
  cases h1 : b.read_u8 with
  | none => simp only [h1] at h; exact Option.noConfusion h
  | some p1 =>
    obtain ⟨v1, b1⟩ := p1
    simp only [h1] at h
    cases h2 : b1.read_u8 with
    | none => simp only [h2] at h; exact Option.noConfusion h
    | some p2 =>
      obtain ⟨v2, b2⟩ := p2
      simp only [h2, Option.some.injEq, Prod.mk.injEq] at h
      obtain ⟨ha1, ha2⟩ := read_u8_some h1
      obtain ⟨hb1, hb2⟩ := read_u8_some h2
      rw [← h.2]
      omega

theorem read_u16_none {b : BytePacketBuffer} : b.read_u16 = none ↔ 512 < b.pos + 2 := by
  unfold BytePacketBuffer.read_u16
  cases h1 : b.read_u8 with
  | none =>
    have h := read_u8_none.mp h1
    exact iff_of_true rfl (by omega)
  | some p1 =>
    obtain ⟨v1, b1⟩ := p1
    obtain ⟨ha1, ha2⟩ := read_u8_some h1
    simp only [h1]
    cases h2 : b1.read_u8 with
    | none =>
      have h := read_u8_none.mp h2
      exact iff_of_true rfl (by omega)
    | some p2 =>
      obtain ⟨v2, b2⟩ := p2
      obtain ⟨hb1, hb2⟩ := read_u8_some h2
      exact iff_of_false (by simp) (by omega)

theorem read_u32_some {b b' : BytePacketBuffer} {v : Nat}
    (h : b.read_u32 = some (v, b')) : b.pos + 4 ≤ 512 ∧ b'.pos = b.pos + 4 := by
  unfold BytePacketBuffer.read_u32 at h
  cases h1 : b.read_u8 with
  | none => simp only [h1] at h; exact Option.noConfusion h
  | some p1 =>
    obtain ⟨v1, b1⟩ := p1
    simp only [h1] at h
    cases h2 : b1.read_u8 with
    | none => simp only [h2] at h; exact Option.noConfusion h
    | some p2 =>
      obtain ⟨v2, b2⟩ := p2
      simp only [h2] at h
      cases h3 : b2.read_u8 with
      | none => simp only [h3] at h; exact Option.noConfusion h
      | some p3 =>
        obtain ⟨v3, b3⟩ := p3
        simp only [h3] at h
        cases h4 : b3.read_u8 with
        | none => simp only [h4] at h; exact Option.noConfusion h
        | some p4 =>
          obtain ⟨v4, b4⟩ := p4
          simp only [h4, Option.some.injEq, Prod.mk.injEq] at h
          obtain ⟨ha1, ha2⟩ := read_u8_some h1
          obtain ⟨hb1, hb2⟩ := read_u8_some h2
          obtain ⟨hc1, hc2⟩ := read_u8_some h3
          obtain ⟨hd1, hd2⟩ := read_u8_some h4
          rw [← h.2]
          omega

theorem read_u32_none {b : BytePacketBuffer} : b.read_u32 = none ↔ 512 < b.pos + 4 := by
  unfold BytePacketBuffer.read_u32
  cases h1 : b.read_u8 with
  | none =>
    have h := read_u8_none.mp h1
    exact iff_of_true rfl (by omega)
  | some p1 =>
    obtain ⟨v1, b1⟩ := p1
    obtain ⟨ha1, ha2⟩ := read_u8_some h1
    simp only [h1]
    cases h2 : b1.read_u8 with
    | none =>
      have h := read_u8_none.mp h2
      exact iff_of_true rfl (by omega)
    | some p2 =>
      obtain ⟨v2, b2⟩ := p2
      obtain ⟨hb1, hb2⟩ := read_u8_some h2
      simp only [h2]
      cases h3 : b2.read_u8 with
      | none =>
        have h := read_u8_none.mp h3
        exact iff_of_true rfl (by omega)
      | some p3 =>
        obtain ⟨v3, b3⟩ := p3
        obtain ⟨hc1, hc2⟩ := read_u8_some h3
        simp only [h3]
        cases h4 : b3.read_u8 with
        | none =>
          have h := read_u8_none.mp h4
          exact iff_of_true rfl (by omega)
        | some p4 =>
          obtain ⟨v4, b4⟩ := p4
          obtain ⟨hd1, hd2⟩ := read_u8_some h4
          exact iff_of_false (by simp) (by omega)

theorem write_u16_some {b b' : BytePacketBuffer} {v : Nat}
    (h : b.write_u16 v = some b') : b.pos + 2 ≤ 512 ∧ b'.pos = b.pos + 2 := by
  unfold BytePacketBuffer.write_u16 at h
  cases h1 : b.write_u8 (v >>> 8) with
  | none => simp only [h1] at h; exact Option.noConfusion h
  | some b1 =>
    simp only [h1] at h
    obtain ⟨ha1, ha2⟩ := write_u8_some h1
    obtain ⟨hb1, hb2⟩ := write_u8_some h
    omega

theorem write_u16_none {b : BytePacketBuffer} {v : Nat} :
    b.write_u16 v = none ↔ 512 < b.pos + 2 := by
  unfold BytePacketBuffer.write_u16
  cases h1 : b.write_u8 (v >>> 8) with
  | none =>
    have h := write_u8_none.mp h1
    exact iff_of_true rfl (by omega)
  | some b1 =>
    obtain ⟨ha1, ha2⟩ := write_u8_some h1
    simp only [h1]
    rw [write_u8_none]
    omega

theorem write_u32_some {b b' : BytePacketBuffer} {v : Nat}
    (h : b.write_u32 v = some b') : b.pos + 4 ≤ 512 ∧ b'.pos = b.pos + 4 := by
  unfold BytePacketBuffer.write_u32 at h
  cases h1 : b.write_u16 (v >>> 16) with
  | none => simp only [h1] at h; exact Option.noConfusion h
  | some b1 =>
    simp only [h1] at h
    obtain ⟨ha1, ha2⟩ := write_u16_some h1
    obtain ⟨hb1, hb2⟩ := write_u16_some h
    omega

theorem write_u32_none {b : BytePacketBuffer} {v : Nat} :
    b.write_u32 v = none ↔ 512 < b.pos + 4 := by
  unfold BytePacketBuffer.write_u32
  cases h1 : b.write_u16 (v >>> 16) with
  | none =>
    have h := write_u16_none.mp h1
    exact iff_of_true rfl (by omega)
  | some b1 =>
    obtain ⟨ha1, ha2⟩ := write_u16_some h1
    simp only [h1]
    rw [write_u16_none]
    omega

theorem foldlM_write_u8_pos :
    ∀ (l : List Nat) (b b' : BytePacketBuffer), b.pos ≤ 512 →
      List.foldlM BytePacketBuffer.write_u8 b l = some b' → b'.pos ≤ 512 := by
  intro l
  induction l with
  | nil =>
    intro b b' hb h
    simp only [List.foldlM, pure, Option.some.injEq] at h
    rw [← h]
    exact hb
  | cons v t ih =>
    intro b b' hb h
    simp only [List.foldlM] at h
    cases hw : b.write_u8 v with
    | none => rw [hw] at h; exact absurd h (by simp [Bind.bind])
    | some b1 =>
      rw [hw] at h
      obtain ⟨h1, h2⟩ := write_u8_some hw
      exact ih b1 b' (by omega) h

theorem write_qname_labels_pos :
    ∀ (ls : List (List Char)) (b b' : BytePacketBuffer), b.pos ≤ 512 →
      write_qname_labels b ls = some b' → b'.pos ≤ 512 := by
  intro ls
  induction ls with
  | nil =>
    intro b b' hb h
    simp only [write_qname_labels, Option.some.injEq] at h
    rw [← h]
    exact hb
  | cons label rest ih =>
    intro b b' hb h
    simp only [write_qname_labels] at h
    split at h
    · exact absurd h (by simp)
    · cases hw : b.write_u8 label.length with
      | none => simp only [hw] at h; exact Option.noConfusion h
      | some b1 =>
        simp only [hw] at h
        obtain ⟨h1, h2⟩ := write_u8_some hw
        cases hf : List.foldlM BytePacketBuffer.write_u8 b1 (label.map Char.toNat) with
        | none => simp only [hf] at h; exact Option.noConfusion h
        | some b2 =>
          simp only [hf] at h
          exact ih b2 b' (foldlM_write_u8_pos _ b1 b2 (by omega) hf) h

theorem write_qname_pos {b b' : BytePacketBuffer} {qname : String}
    (h : write_qname b qname = some b') : b'.pos ≤ 512 := by
  unfold write_qname at h
  cases hl : write_qname_labels b (split_on_dot qname.data) with
  | none => simp only [hl] at h; exact Option.noConfusion h
  | some b1 =>
    simp only [hl] at h
    obtain ⟨h1, h2⟩ := write_u8_some h
    omega

theorem read_qname_go_ok_pos :
    ∀ (fuel : Nat) (b : BytePacketBuffer) (pos : Nat) (jumped : Bool)
      (jp : Nat) (delim out o : String) (b' : BytePacketBuffer),
      b.pos ≤ 512 →
      read_qname_go b pos jumped jp delim out fuel = .ok o b' → b'.pos ≤ 512 := by
  intro fuel
  induction fuel with
  | zero =>
    intro b pos jumped jp delim out o b' _ h
    exact QnameRes.noConfusion h
  | succ n ih =>
    intro b pos jumped jp delim out o b' hb h
    rw [read_qname_go] at h
    by_cases hjp : 5 < jp
    · rw [if_pos hjp] at h
      exact QnameRes.noConfusion h
    · rw [if_neg hjp] at h
      cases hg : b.get pos with
      | none => simp only [hg] at h; exact QnameRes.noConfusion h
      | some len =>
        simp only [hg] at h
        have hpos := get_some_lt hg
        by_cases hptr : len &&& 0xC0 = 0xC0
        · rw [if_pos hptr] at h
          cases hg2 : (if jumped then b else { b with pos := pos + 2 }).get (pos + 1) with
          | none => simp only [hg2] at h; exact QnameRes.noConfusion h
          | some v2 =>
            simp only [hg2] at h
            have h512 := get_some_lt hg2
            refine ih _ _ _ _ _ _ _ _ ?_ h
            cases jumped with
            | true => simpa using hb
            | false => simp only [Bool.false_eq_true, if_false]; omega
        · rw [if_neg hptr] at h
          by_cases hz : len = 0
          · rw [if_pos hz] at h
            cases jumped with
            | true =>
              rw [if_pos rfl] at h
              cases h
              exact hb
            | false =>
              rw [if_neg (by simp)] at h
              cases h
              simp only []
              omega
          · rw [if_neg hz] at h
            cases hr : b.get_range (pos + 1) len with
            | none => simp only [hr] at h; exact QnameRes.noConfusion h
            | some str_buffer =>
              simp only [hr] at h
              exact ih _ _ _ _ _ _ _ _ hb h

/-- C7 (counterexample): `start = 511`, `len = 1` satisfies
`start + len ≤ 512`, yet `get_range` fails: the source rejects at
`start + len >= 512`, not at `> 512`. -/
theorem C7_counterexample :
    511 + 1 ≤ 512 ∧ BytePacketBuffer.new.get_range 511 1 = none := by
  exact ⟨by decide, rfl⟩

/-- C7 (amended): `get_range start len` returns the slice
`buf[start..start+len]` exactly when `start + len < 512`, and fails with
the out-of-range error exactly when `start + len ≥ 512` — one short of
the claimed bound, so the final byte of the buffer is unreachable. -/
theorem C7_theorem (b : BytePacketBuffer) (start len : Nat) :
    (b.get_range start len = none ↔ 512 ≤ start + len) ∧
    (start + len < 512 →
      b.get_range start len = some ((List.range len).map (fun i => b.buf (start + i)))) := by
  unfold BytePacketBuffer.get_range
  constructor
  · split <;> simp_all
  · intro h
    rw [if_neg (by omega)]

/-- Witness for C7 on the fresh buffer at `start = 3`, `len = 4`. -/
theorem C7_witness : BytePacketBuffer.new.get_range 3 4 = some [0, 0, 0, 0] := by
  rw [(C7_theorem BytePacketBuffer.new 3 4).2 (by decide)]
  rfl

/-- C8 (counterexample): from the fresh buffer (cursor 0 ≤ 512), `step 600`
succeeds and leaves the cursor at 600 > 512: `seek` and `step` perform no
bound check, so the claimed invariant fails. -/
theorem C8_counterexample :
    (BytePacketBuffer.new.step 600).map BytePacketBuffer.pos = some 600 ∧ 512 < 600 := by
  exact ⟨rfl, by decide⟩

/-- C8 (amended): starting from a cursor at most 512, the bounded
operations (read_u8/u16/u32, write_u8/u16/u32, write_qname, and read_qname
when it succeeds) never leave the cursor above 512, and the fixed-width
reads and writes fail exactly when they would cross that bound; `seek` and
`step`, however, reposition the cursor unconditionally and may leave it
above 512. -/
theorem C8_theorem (b : BytePacketBuffer) (hb : b.pos ≤ 512) : cursor_ops_spec b := by
  refine ⟨?_, ?_, ?_, ?_, ?_, ?_, ?_, ?_, ?_, ?_, ?_, ?_, ?_, ?_, ?_, ?_⟩
  · intro v b' h; have := read_u8_some h; omega
  · rw [read_u8_none]; omega
  · intro v b' h; have := read_u16_some h; omega
  · exact read_u16_none
  · intro v b' h; have := read_u32_some h; omega
  · exact read_u32_none
  · intro v b' h; have := write_u8_some h; omega
  · intro v; rw [write_u8_none]; omega
  · intro v b' h; have := write_u16_some h; omega
  · intro v; exact write_u16_none
  · intro v b' h; have := write_u32_some h; omega
  · intro v; exact write_u32_none
  · intro qname b' h; exact write_qname_pos h
  · intro out acc b' h; exact read_qname_go_ok_pos 4000 b b.pos false 0 "" acc out b' hb h
  · intro p; rfl
  · intro n; rfl

/-- Witness for C8: instantiating the amended invariant at the fresh
buffer; its `read_u8` succeeds and leaves the cursor at 1 ≤ 512. -/
theorem C8_witness : ({ BytePacketBuffer.new with pos := 1 } : BytePacketBuffer).pos ≤ 512 := by
  exact (C8_theorem BytePacketBuffer.new (by decide)).1 0
    { BytePacketBuffer.new with pos := 1 } rfl

theorem read_qname_go_no_fuelOut :
    ∀ (fuel : Nat) (b : BytePacketBuffer) (pos : Nat) (jumped : Bool)
      (jp : Nat) (delim out : String),
      (6 - jp) * 513 + (513 - min pos 512) ≤ fuel →
      read_qname_go b pos jumped jp delim out fuel ≠ .fuelOut := by
  intro fuel
  induction fuel with
  | zero =>
    intro b pos jumped jp delim out hle
    exact absurd hle (by omega)
  | succ n ih =>
    intro b pos jumped jp delim out hle
    rw [read_qname_go]
    by_cases hjp : 5 < jp
    · rw [if_pos hjp]
      exact fun hc => QnameRes.noConfusion hc
    · rw [if_neg hjp]
      cases hg : b.get pos with
      | none =>
        simp only [hg]
        exact fun hc => QnameRes.noConfusion hc
      | some len =>
        simp only [hg]
        have hpos := get_some_lt hg
        by_cases hptr : len &&& 0xC0 = 0xC0
        · rw [if_pos hptr]
          cases hg2 : (if jumped then b else { b with pos := pos + 2 }).get (pos + 1) with
          | none =>
            simp only [hg2]
            exact fun hc => QnameRes.noConfusion hc
          | some v2 =>
            simp only [hg2]
            apply ih
            omega
        · rw [if_neg hptr]
          by_cases hz : len = 0
          · rw [if_pos hz]
            split <;> exact fun hc => QnameRes.noConfusion hc
          · rw [if_neg hz]
            cases hr : b.get_range (pos + 1) len with
            | none =>
              simp only [hr]
              exact fun hc => QnameRes.noConfusion hc
            | some str_buffer =>
              simp only [hr]
              apply ih
              omega

/-- C4: `read_qname` terminates for every buffer content and starting
cursor: with the fixed fuel 4000 (which exceeds the worst case of 6 jumps
of at most 513 label iterations each) the loop runner never exhausts its
fuel; once `jumps_performed` exceeds the bound 5 the very next iteration
returns the jump-limit error; and the crafted two-byte pointer cycle
`C0 00` at offset 0 is rejected within 7 loop iterations, i.e. 6 jump
steps plus the failing check. -/
theorem C4_theorem :
    (∀ (b : BytePacketBuffer) (out : String), read_qname b out ≠ .fuelOut) ∧
    (∀ (b : BytePacketBuffer) (pos : Nat) (jumped : Bool) (delim out : String) (fuel : Nat),
      read_qname_go b pos jumped 6 delim out (fuel + 1) = .err) ∧
    read_qname_go cycle_buffer 0 false 0 "" "" 7 = .err := by
  refine ⟨?_, ?_, ?_⟩
  · intro b out
    apply read_qname_go_no_fuelOut
    omega
  · intro b pos jumped delim out fuel
    rw [read_qname_go]
    rw [if_pos (by omega)]
  · rfl

/-- C5: the round trip already fails at encoding: the 53-octet label
`label53` satisfies every hypothesis of the claim (non-empty, at most 63
octets, encoded length 55 ≤ 255), yet `write_qname` rejects it because the
source compares against `0x34` = 52 instead of 63 (its own error message
says 63), so `read_qname` never gets a buffer to decode. -/
theorem C5_theorem :
    label53.length = 53 ∧ (53 : Nat) ≤ 63 ∧
    write_qname BytePacketBuffer.new label53 = none := by
  refine ⟨by decide, by decide, ?_⟩
  rfl

/-- C6: `write_qname` does not fail "if and only if some label exceeds 63
octets": the single 60-octet label `label60` fits the buffer (62 encoded
bytes) and exceeds no limit of 63, yet the source rejects it at its
`len > 0x34` (52) check. -/
theorem C6_theorem :
    label60.length = 60 ∧ (60 : Nat) ≤ 63 ∧ 1 + 60 + 1 ≤ 512 ∧
    write_qname BytePacketBuffer.new label60 = none := by
  refine ⟨by decide, by decide, by decide, ?_⟩
  rfl

theorem land_255 (v : Nat) : v &&& 0xFF = v % 256 := by
  have h := Nat.and_pow_two_sub_one_eq_mod v 8
  norm_num at h
  exact h

theorem lor_mul_add (a c : Nat) (hc : c < 256) : (a <<< 8) ||| c = a * 256 + c := by
  rw [Nat.shiftLeft_eq]
  have hc' : c < 2 ^ 8 := by omega
  calc a * 2 ^ 8 ||| c = 2 ^ 8 * a ||| c := by rw [Nat.mul_comm]
    _ = 2 ^ 8 * a + c := (Nat.mul_add_lt_is_or hc' a).symm
    _ = a * 256 + c := by ring

theorem u16_byte_round (v : Nat) (hv : v < 65536) :
    ((((v >>> 8) % 256) <<< 8) ||| ((v &&& 0xFF) % 256)) = v := by
  have h1 : v >>> 8 = v / 256 := by
    rw [Nat.shiftRight_eq_div_pow]
  have h3 : (v >>> 8) % 256 = v / 256 := by
    rw [h1, Nat.mod_eq_of_lt (by omega)]
  have h5 : (v &&& 0xFF) % 256 = v % 256 := by
    rw [land_255]
    omega
  rw [h3, h5, lor_mul_add _ _ (by omega)]
  omega

theorem u16_split_hi (a c : Nat) (hc : c < 256) : ((a <<< 8) ||| c) >>> 8 = a := by
  rw [lor_mul_add a c hc, Nat.shiftRight_eq_div_pow]
  norm_num
  omega

theorem u16_split_lo (a c : Nat) (hc : c < 256) : ((a <<< 8) ||| c) &&& 0xFF = c := by
  rw [lor_mul_add a c hc, land_255]
  omega

theorem u16_split_hi2 (a b : Nat) : ((a <<< 8) ||| b % 256) >>> 8 = a :=
  u16_split_hi a (b % 256) (Nat.mod_lt _ (by norm_num))

theorem u16_split_lo2 (a b : Nat) : ((a <<< 8) ||| b % 256) &&& 255 = b % 256 :=
  u16_split_lo a (b % 256) (Nat.mod_lt _ (by norm_num))

theorem flagsA_decode :
    ∀ (op : Nat), op < 16 → ∀ (rd tc aa qr : Bool),
      (decide (0 < (rd.toNat ||| tc.toNat <<< 1 ||| aa.toNat <<< 2 ||| op <<< 3 ||| qr.toNat <<< 7) % 256 % 2) = rd) ∧
      (decide (0 < (rd.toNat ||| tc.toNat <<< 1 ||| aa.toNat <<< 2 ||| op <<< 3 ||| qr.toNat <<< 7) % 256 &&& 2) = tc) ∧
      (decide (0 < (rd.toNat ||| tc.toNat <<< 1 ||| aa.toNat <<< 2 ||| op <<< 3 ||| qr.toNat <<< 7) % 256 &&& 4) = aa) ∧
      ((((rd.toNat ||| tc.toNat <<< 1 ||| aa.toNat <<< 2 ||| op <<< 3 ||| qr.toNat <<< 7) % 256) >>> 3) &&& 15 = op) ∧
      (decide (0 < (rd.toNat ||| tc.toNat <<< 1 ||| aa.toNat <<< 2 ||| op <<< 3 ||| qr.toNat <<< 7) % 256 &&& 128) = qr) := by
  intro op hop rd tc aa qr
  cases rd <;> cases tc <;> cases aa <;> cases qr <;> interval_cases op <;> decide

theorem flagsB_decode :
    ∀ (rc : ResultCode) (cd ad z ra : Bool),
      (ResultCode.from_num ((rc.to_num ||| cd.toNat <<< 4 ||| ad.toNat <<< 5 ||| z.toNat <<< 6 ||| ra.toNat <<< 7) % 256 &&& 15) = rc) ∧
      (decide (0 < (rc.to_num ||| cd.toNat <<< 4 ||| ad.toNat <<< 5 ||| z.toNat <<< 6 ||| ra.toNat <<< 7) % 256 &&& 16) = cd) ∧
      (decide (0 < (rc.to_num ||| cd.toNat <<< 4 ||| ad.toNat <<< 5 ||| z.toNat <<< 6 ||| ra.toNat <<< 7) % 256 &&& 32) = ad) ∧
      (decide (0 < (rc.to_num ||| cd.toNat <<< 4 ||| ad.toNat <<< 5 ||| z.toNat <<< 6 ||| ra.toNat <<< 7) % 256 &&& 64) = z) ∧
      (decide (0 < (rc.to_num ||| cd.toNat <<< 4 ||| ad.toNat <<< 5 ||| z.toNat <<< 6 ||| ra.toNat <<< 7) % 256 &&& 128) = ra) := by
  intro rc cd ad z ra
  cases rc <;> cases cd <;> cases ad <;> cases z <;> cases ra <;> decide

/-- C9: for every header with opcode below 16 (and 16-bit id and section
counts; the rescode is one of the six `ResultCode` values by construction),
`Header::write` into a fresh buffer followed by `Header::read` from
position 0 reproduces the original header field for field. -/
theorem C9_theorem (h : Header) (hop : h.opcode < 16) (hid : h.id < 65536)
    (hq : h.questions < 65536) (hans : h.answers < 65536)
    (hauth : h.authoritative_entries < 65536) (hres : h.resource_entries < 65536) :
    ((Header.write h BytePacketBuffer.new).bind
      (fun b => Header.read { b with pos := 0 })).map Prod.fst = some h := by
  obtain ⟨id, rd, tc, aa, op, resp, rc, cd, ad, z, ra, qs, ans, aes, res⟩ := h
  simp [Header.write, Header.read, BytePacketBuffer.write_u16, BytePacketBuffer.write_u8,
        BytePacketBuffer.read_u16, BytePacketBuffer.read_u8, BytePacketBuffer.new,
        Function.update]
  rw [u16_split_hi2, u16_split_lo2]
  exact ⟨u16_byte_round id hid,
         (flagsA_decode op hop rd tc aa resp).1,
         (flagsA_decode op hop rd tc aa resp).2.1,
         (flagsA_decode op hop rd tc aa resp).2.2.1,
         (flagsA_decode op hop rd tc aa resp).2.2.2.1,
         (flagsA_decode op hop rd tc aa resp).2.2.2.2,
         (flagsB_decode rc cd ad z ra).1,
         (flagsB_decode rc cd ad z ra).2.1,
         (flagsB_decode rc cd ad z ra).2.2.1,
         (flagsB_decode rc cd ad z ra).2.2.2.1,
         (flagsB_decode rc cd ad z ra).2.2.2.2,
         u16_byte_round qs hq,
         u16_byte_round ans hans,
         u16_byte_round aes hauth,
         u16_byte_round res hres⟩

/-- Witness for C9 at `sample_header`. -/
theorem C9_witness :
    ((Header.write sample_header BytePacketBuffer.new).bind
      (fun b => Header.read { b with pos := 0 })).map Prod.fst = some sample_header :=
  C9_theorem sample_header (by decide) (by decide) (by decide) (by decide) (by decide) (by decide)

/-- C1: refuted on the code — during the SEARCHING_NS cache consult the
source parses the ENTRY'S DOMAIN (`Ipv4Addr::from_str(&record.domain)`),
not the entry's stored address, as the next nameserver.  For the realistic
valid row `ns_cached_row` (domain "ns.example.com", address "9.9.9.9") the
parse fails, the entry is treated as a miss, and the resolver state and
cache are left unchanged — none of the updates the claim describes happen,
even though the stored address would have parsed. -/
theorem C1_theorem :
    ns_cached_row.is_valid 50 = true ∧
    ns_state.search_for_qname = false ∧
    ns_cached_row.address = some "9.9.9.9" ∧
    ipv4_from_str "9.9.9.9" = some ⟨9, 9, 9, 9⟩ ∧
    ipv4_from_str ns_cached_row.domain = none ∧
    handling_record ns_cached_row 50 ns_state "wiki.archlinux.org" .A [ns_cached_row] =
      (none, ns_state, [ns_cached_row]) := by
  exact ⟨rfl, rfl, rfl, rfl, rfl, rfl⟩

theorem filterMap_a_head (l : List Record) :
    (l.filterMap (fun record =>
      match record with
      | .A _ _ _ => some record
      | _ => none)).head? = l.find? Record.is_a := by
  induction l with
  | nil => rfl
  | cons r t ih =>
    cases r <;> simp [List.filterMap_cons, List.find?, Record.is_a, ih]

/-- C2 (amended): when the answer section is non-empty with rescode
NOERROR (and the cache consult missed), the extraction
`get_random_a_rec` returns the first A-record of the answer section in
wire order; if one exists the iteration inserts it into the cache and
returns the response as-is, but when the non-empty answer section contains
no A-record the extraction yields none and the `.unwrap()` branch panics —
that branch is reachable, contrary to the claim. -/
theorem C2_theorem (qname : String) (qtype : QueryType) (root : Ipv4) (now : Nat)
    (st : RState) (db : List CachedRecord) (response : Packet)
    (hphase : st.search_for_qname = true)
    (hmiss : db.find? (fun cr => cr.domain == st.currently_quering) = none)
    (hne : response.answers ≠ [])
    (hrc : response.header.rescode = .NOERROR) :
    response.get_random_a_rec = response.answers.find? Record.is_a ∧
    (∀ d a t, response.get_random_a_rec = some (.A d a t) →
      inquiring_iteration qname qtype root now st db (some response) =
        .ret response (db ++ [a_row d a t now db.length])) ∧
    (response.get_random_a_rec = none →
      inquiring_iteration qname qtype root now st db (some response) = .panic) := by
  have hmain : ∀ r, response.get_random_a_rec = r →
      inquiring_iteration qname qtype root now st db (some response) =
        (match r with
         | some record =>
           match record.register_record db now with
           | none => .err
           | some (_, db') => .ret response db'
         | none => .panic) := by
    intro r hget
    unfold inquiring_iteration
    rw [hmiss]
    simp only []
    unfold inquiring_after_lookup
    rw [hphase]
    simp only [Bool.true_eq_false, if_false]
    rw [if_pos ⟨hne, hrc⟩, hget]
    cases r <;> rfl
  refine ⟨filterMap_a_head response.answers, ?_, ?_⟩
  · intro d a t hget
    rw [hmain (some (.A d a t)) hget]
    rfl
  · intro hget
    rw [hmain none hget]
/-- Counterexample for C2: a response whose non-empty NOERROR answer
section holds a single CNAME record makes `get_random_a_rec` return none,
and the iteration hits the `.unwrap()` panic. -/
theorem C2_counterexample :
    cname_only_response.answers ≠ [] ∧
    cname_only_response.header.rescode = .NOERROR ∧
    cname_only_response.get_random_a_rec = none ∧
    inquiring_iteration "a.com" .A ⟨198, 41, 0, 4⟩ 50 searching_state []
      (some cname_only_response) = .panic := by
  exact ⟨by decide, rfl, rfl, rfl⟩

/-- Witness for C2: with a single-A-record answer the iteration returns
the response as-is and caches the record. -/
theorem C2_witness :
    inquiring_iteration "a.com" .A ⟨198, 41, 0, 4⟩ 50 searching_state []
      (some a_only_response) = .ret a_only_response [a_row "a.com" ⟨5, 6, 7, 8⟩ 60 50 0] :=
  (C2_theorem ("a.com") .A ⟨198, 41, 0, 4⟩ 50 searching_state [] a_only_response rfl rfl
    (by decide) rfl).2.1 "a.com" ⟨5, 6, 7, 8⟩ 60 rfl

/-- Counterexample for C3: with cache rows [expired_row, valid_row] for
"x.com", the cache-only path answers SERVFAIL although `valid_row` is a
valid, well-formed entry for the name: the SQL keeps LIMIT 1, so only the
first matching row is retrieved, and an expired retrieved row makes the
loop return SERVFAIL at once. -/
theorem C3_counterexample :
    rd_clear_request.header.recursion_desired = false ∧
    valid_row.domain = "x.com" ∧
    valid_row.is_valid 50 = true ∧
    (valid_row.record_from_cache).isSome = true ∧
    (cached_compose_response rd_clear_request [expired_row, valid_row] 50).1.header.rescode =
      .SERVFAIL := by
  exact ⟨rfl, rfl, rfl, rfl, rfl⟩

/-- C3 (amended): the cache-only path retrieves AT MOST ONE row for the
question's qname (`LIMIT 1`); it returns a response carrying that row's
record when the row is valid and well-formed, and returns SERVFAIL when no
row is retrieved, or the retrieved row is malformed, or it is expired (in
which case it is deleted) — even when other valid rows exist for the
name. -/
theorem C3_theorem (request : Packet) (db : List CachedRecord) (now : Nat) (q : Question)
    (hq : request.questions.getLast? = some q) :
    (((db.filter (fun cr => cr.domain == q.qname)).take 1).length ≤ 1) ∧
    (db.filter (fun cr => cr.domain == q.qname) = [] →
      cached_compose_response request db now =
        (Packet.add_info Packet.new request.header.id false true true .SERVFAIL, db)) ∧
    (∀ cr rest, db.filter (fun cr2 => cr2.domain == q.qname) = cr :: rest →
      (cr.is_valid now = true →
        (∀ response, Packet.add_cr_to_answers Packet.new cr = some response →
          cached_compose_response request db now =
            (response.add_info request.header.id false true true response.header.rescode, db)) ∧
        (Packet.add_cr_to_answers Packet.new cr = none →
          cached_compose_response request db now =
            (Packet.add_info Packet.new request.header.id false true true .SERVFAIL, db))) ∧
      (cr.is_valid now = false →
        cached_compose_response request db now =
          (Packet.add_info Packet.new request.header.id false true true .SERVFAIL,
           delete_from_db db cr))) := by
  refine ⟨?_, ?_, ?_⟩
  · simp [List.length_take]
  · intro hfilter
    unfold cached_compose_response
    rw [hq]
    simp only [hfilter, List.take_nil, List.getLast?_nil]
  · intro cr rest hfilter
    constructor
    · intro hvalid
      constructor
      · intro response hadd
        unfold cached_compose_response
        rw [hq]
        simp only [hfilter, List.take_succ_cons, List.take_zero, List.getLast?_singleton]
        rw [hvalid]
        simp only [if_true]
        rw [hadd]
      · intro hadd
        unfold cached_compose_response
        rw [hq]
        simp only [hfilter, List.take_succ_cons, List.take_zero, List.getLast?_singleton]
        rw [hvalid]
        simp only [if_true]
        rw [hadd]
    · intro hvalid
      unfold cached_compose_response
      rw [hq]
      simp only [hfilter, List.take_succ_cons, List.take_zero, List.getLast?_singleton]
      rw [hvalid]
      simp only [Bool.false_eq_true, if_false]

/-- Witness for C3: a single expired row is deleted and answered with
SERVFAIL. -/
theorem C3_witness :
    cached_compose_response rd_clear_request [expired_row] 50 =
      (Packet.add_info Packet.new rd_clear_request.header.id false true true .SERVFAIL,
       delete_from_db [expired_row] expired_row) :=
  ((C3_theorem rd_clear_request [expired_row] 50 ⟨"x.com", .A⟩ rfl).2.2 expired_row [] rfl).2 rfl

/-- C10: both response composers depend only on the request's header id
and its LAST question — any other questions are silently ignored — the
response carries at most one question, and an empty question sequence
yields a FORMERR response on both the recursive and the cache-only
path. -/
theorem C10_theorem (request request2 : Packet) (inq : String → QueryType → Option Packet)
    (db : List CachedRecord) (now : Nat)
    (hid : request.header.id = request2.header.id)
    (hlast : request.questions.getLast? = request2.questions.getLast?) :
    compose_response request inq = compose_response request2 inq ∧
    cached_compose_response request db now = cached_compose_response request2 db now ∧
    (compose_response request inq).questions.length ≤ 1 ∧
    (request.questions = [] →
      (compose_response request inq).header.rescode = .FORMERR ∧
      (cached_compose_response request db now).1.header.rescode = .FORMERR) := by
  refine ⟨?_, ?_, ?_, ?_⟩
  · unfold compose_response
    rw [hid, hlast]
  · unfold cached_compose_response
    rw [hid, hlast]
  · unfold compose_response
    cases hql : request.questions.getLast? with
    | none => simp [Packet.new]
    | some question =>
      cases hr : inq question.qname question.qtype <;> simp [hr, Packet.new]
  · intro hempty
    constructor
    · unfold compose_response
      rw [hempty]
      rfl
    · unfold cached_compose_response
      rw [hempty]
      rfl

/-- Witness for C10: a two-question request gets the same response as the
request holding only its last question. -/
theorem C10_witness :
    compose_response two_question_request const_inq =
      compose_response one_question_request const_inq :=
  (C10_theorem two_question_request one_question_request const_inq [] 0 rfl rfl).1

end RustyDns


